import Mathlib

/-!
Verification development for the AI-Trader futu trading core.

The Python source is shallowly embedded: pure fragments become Lean
functions, file-system state (the per-account position ledger) becomes an
explicit `Option (List LedgerLine)` value threaded through the operations,
and external collaborators (brokerage context, quote snapshots, the
language-model decision step) become oracle parameters.  Machine floats
are modelled as rationals; the properties below are about control flow and
field provenance, not float rounding.
-/

namespace AITrader

/-! ## Market scheduler (`scheduler_futu.py`)

`get_market_hours` returns, per market, tuples `(startHour, startMin,
endHour, endMin)` of the session windows; `get_market_status` converts the
current market-local time to minutes since midnight and classifies it.
The wall-clock read (`datetime.now`) is modelled by passing the
market-local weekday (`0 = Monday .. 6 = Sunday`) and the market-local
minutes-since-midnight as explicit arguments. -/

/-- US pre-market window `(4, 0, 9, 30)` from `get_market_hours`. -/
def us_pre_market : Nat × Nat × Nat × Nat := (4, 0, 9, 30)

/-- US regular window `(9, 30, 16, 0)` from `get_market_hours`. -/
def us_regular : Nat × Nat × Nat × Nat := (9, 30, 16, 0)

/-- US after-hours window `(16, 0, 20, 0)` from `get_market_hours`. -/
def us_after_hours : Nat × Nat × Nat × Nat := (16, 0, 20, 0)

/-- HK morning window `(9, 30, 12, 0)` from `get_market_hours`. -/
def hk_morning : Nat × Nat × Nat × Nat := (9, 30, 12, 0)

/-- HK afternoon window `(13, 0, 16, 0)` from `get_market_hours`. -/
def hk_afternoon : Nat × Nat × Nat × Nat := (13, 0, 16, 0)

/-- `w[0] * 60 + w[1]`: window start in minutes since midnight. -/
def winStart (w : Nat × Nat × Nat × Nat) : Nat := w.1 * 60 + w.2.1

/-- `w[2] * 60 + w[3]`: window end in minutes since midnight. -/
def winEnd (w : Nat × Nat × Nat × Nat) : Nat := w.2.2.1 * 60 + w.2.2.2

/-- The result dictionary built by `get_market_status` (the two formatted
time strings are omitted: they are display-only). -/
structure MarketStatus where
  market : String
  weekday : Nat
  is_weekend : Bool
  session : String
  is_trading : Bool
  deriving Repr, DecidableEq

/-- Embedding of `get_market_status(market)` from `scheduler_futu.py`,
with the market-local weekday and minutes-since-midnight (`current_time =
hour * 60 + minute`, seconds dropped) passed explicitly in place of the
`datetime.now` read. -/
def get_market_status (market : String) (weekday currentTime : Nat) : MarketStatus :=
  let base : MarketStatus :=
    { market := market, weekday := weekday, is_weekend := weekday ≥ 5,
      session := "CLOSED", is_trading := false }
  if weekday ≥ 5 then
    { base with session := "WEEKEND" }
  else if market = "US" then
    if winStart us_pre_market ≤ currentTime ∧ currentTime < winEnd us_pre_market then
      { base with session := "PRE_MARKET", is_trading := true }
    else if winStart us_regular ≤ currentTime ∧ currentTime < winEnd us_regular then
      { base with session := "REGULAR", is_trading := true }
    else if winStart us_after_hours ≤ currentTime ∧ currentTime < winEnd us_after_hours then
      { base with session := "AFTER_HOURS", is_trading := true }
    else base
  else
    if winStart hk_morning ≤ currentTime ∧ currentTime < winEnd hk_morning then
      { base with session := "MORNING", is_trading := true }
    else if winStart hk_afternoon ≤ currentTime ∧ currentTime < winEnd hk_afternoon then
      { base with session := "AFTERNOON", is_trading := true }
    else base

/-- One admission decision of `scheduler_loop`: `should_run` starts `True`,
is cleared when `only_trading_hours and not status["is_trading"]`, and
otherwise (the `elif`) cleared again when `status["is_weekend"]`. -/
def shouldRunCycle (onlyTradingHours : Bool) (status : MarketStatus) : Bool :=
  if onlyTradingHours && !status.is_trading then false
  else if status.is_weekend then false
  else true

/-! ## Position ledger (`tool_futu_trade.py` / `base_agent_futu.py`)

The per-account `position/position.jsonl` file is modelled as
`Option (List LedgerLine)`: `none` when the file does not exist, otherwise
the list of its lines in file order.  A line is either `valid r` — it
parses under `json.loads` to the record `r` — or `invalid`, the
abstraction of a trailing partial / unparseable / blank line. -/

/-- The `this_action` object written by `record_trade_to_file`. -/
structure TradeAction where
  action : String
  symbol : String
  amount : Int
  price : ℚ
  order_market : String
  order_id : String
  deriving Repr, DecidableEq

/-- One parsed ledger record.  The registration entry (`register_agent`)
has `act = none` and carries the market / trade-env context; trade entries
(`record_trade_to_file`) carry the action.  `date` is the advisory
wall-clock string. -/
structure LedgerRecord where
  date : String
  id : Nat
  act : Option TradeAction
  reg_market : Option String
  reg_trade_env : Option String
  positions : List (String × ℚ)
  deriving Repr, DecidableEq

/-- One physical line of `position.jsonl`: either it parses to a record or
it is unparseable (crash-truncated, malformed, or blank). -/
inductive LedgerLine where
  | valid (r : LedgerRecord)
  | invalid
  deriving Repr, DecidableEq

/-- The ids of the parseable lines, in file order. -/
def idsOf (lines : List LedgerLine) : List Nat :=
  lines.filterMap fun l =>
    match l with
    | .valid r => some r.id
    | .invalid => none

/-- The max-id scan of `record_trade_to_file`: `current_id` starts at `0`,
each parseable line raises it to `max(current_id, record.get("id", 0))`,
and an unparseable line is skipped by the `try/except` (and a blank line
by the `line.strip()` guard). -/
def scanMaxId (file : Option (List LedgerLine)) : Nat :=
  match file with
  | none => 0
  | some lines =>
    lines.foldl
      (fun acc l =>
        match l with
        | .valid r => max acc r.id
        | .invalid => acc)
      0

/-- Embedding of `record_trade_to_file`: re-scan the durable file for the
maximum id, then append one new line with `id = current_id + 1`.  The
wall-clock string and the order fields are passed through. -/
def record_trade_to_file (file : Option (List LedgerLine)) (date : String)
    (a : TradeAction) (positions : List (String × ℚ)) : List LedgerLine :=
  file.getD [] ++
    [.valid
      { date := date, id := scanMaxId file + 1, act := some a,
        reg_market := none, reg_trade_env := none, positions := positions }]

/-- `init_position` of `register_agent`: `{"CASH": initial_cash}` then a
zero entry for every tracked symbol. -/
def initPositions (initialCash : ℚ) (symbols : List String) : List (String × ℚ) :=
  ("CASH", initialCash) :: symbols.map fun s => (s, (0 : ℚ))

/-- Embedding of `register_agent`: if the position file already exists the
call prints a warning and returns without touching it; otherwise it writes
a single line with `id = 0`, the market / trade-env context and the
initial allocation. -/
def register_agent (file : Option (List LedgerLine)) (date market tradeEnv : String)
    (initialCash : ℚ) (symbols : List String) : List LedgerLine :=
  match file with
  | some lines => lines
  | none =>
    [.valid
      { date := date, id := 0, act := none, reg_market := some market,
        reg_trade_env := some tradeEnv, positions := initPositions initialCash symbols }]

/-- The ledger file after registration followed by `n` recorded trades,
with the wall-clock strings, actions and snapshots of the successive
appends supplied by oracles (append `k` uses index `k`). -/
def ledgerAfter (date market tradeEnv : String) (initialCash : ℚ)
    (symbols : List String) (dates : Nat → String) (acts : Nat → TradeAction)
    (snaps : Nat → List (String × ℚ)) : Nat → List LedgerLine
  | 0 => register_agent none date market tradeEnv initialCash symbols
  | n + 1 =>
    record_trade_to_file
      (some (ledgerAfter date market tradeEnv initialCash symbols dates acts snaps n))
      (dates n) (acts n) (snaps n)

/-- The summary dictionary of `get_position_summary` (static fields of the
agent object omitted). -/
structure PositionSummary where
  latest_date : String
  positions : List (String × ℚ)
  total_records : Nat
  deriving Repr, DecidableEq

/-- The read loop of `get_position_summary`: `json.loads(line)` on every
line with no `try/except`, so the first unparseable line raises
`JSONDecodeError` and aborts the whole read. -/
def readAllRecords : List LedgerLine → Except String (List LedgerRecord)
  | [] => .ok []
  | .valid r :: rest =>
    match readAllRecords rest with
    | .ok rs => .ok (r :: rs)
    | .error e => .error e
  | .invalid :: _ => .error "JSONDecodeError"

/-- Embedding of `get_position_summary`: error when the file is missing;
parse every line (propagating a parse failure as an error, as the
unguarded `json.loads` does); error when there are no records; otherwise
summarise the last record. -/
def get_position_summary (file : Option (List LedgerLine)) :
    Except String PositionSummary :=
  match file with
  | none => .error "position file does not exist"
  | some lines =>
    match readAllRecords lines with
    | .error e => .error e
    | .ok [] => .error "no position records"
    | .ok (r :: rs) =>
      let last := (r :: rs).getLast (by simp)
      .ok
        { latest_date := last.date, positions := last.positions,
          total_records := (r :: rs).length }

/-! ## Retry wrapper (`_ainvoke_with_retry` in `base_agent_futu.py`)

The decision step (`self.agent.ainvoke`) is an external collaborator: it
is modelled by an oracle giving, for each attempt number, either a result
or a raised exception.  The wrapper's observable behaviour is the number
of invocations, the ordered list of sleep durations, and the outcome. -/

/-- Oracle outcome of one decision-step attempt. -/
inductive AttemptResult (α ε : Type) where
  | ok (a : α)
  | fail (e : ε)
  deriving Repr, DecidableEq

/-- How a retry-wrapped call ends: a value returned, an exception
re-raised, or the `None` fall-through when the `for` loop body never runs
(`max_retries = 0`). -/
inductive RetryOutcome (α ε : Type) where
  | returned (a : α)
  | raised (e : ε)
  | fellThrough
  deriving Repr, DecidableEq

/-- Observable trace of a retry-wrapped call: how many times the step was
invoked, the sleeps performed (in order), and the outcome. -/
structure RetryTrace (α ε : Type) where
  calls : Nat
  sleeps : List ℚ
  outcome : RetryOutcome α ε
  deriving Repr, DecidableEq

/-- The `for attempt in range(1, max_retries + 1)` body of
`_ainvoke_with_retry`, from attempt number `attempt` on: a success returns
at once; a failure re-raises when `attempt == max_retries` and otherwise
sleeps `base_delay * attempt` and continues. -/
def retryFrom {α ε : Type} (maxRetries : Nat) (baseDelay : ℚ)
    (step : Nat → AttemptResult α ε) (attempt : Nat) : RetryTrace α ε :=
  if attempt > maxRetries then
    { calls := 0, sleeps := [], outcome := .fellThrough }
  else
    match step attempt with
    | .ok a => { calls := 1, sleeps := [], outcome := .returned a }
    | .fail e =>
      if attempt = maxRetries then
        { calls := 1, sleeps := [], outcome := .raised e }
      else
        let rest := retryFrom maxRetries baseDelay step (attempt + 1)
        { calls := rest.calls + 1,
          sleeps := baseDelay * (attempt : ℚ) :: rest.sleeps,
          outcome := rest.outcome }
termination_by maxRetries + 1 - attempt

/-- Embedding of `_ainvoke_with_retry`: run the attempt loop starting at
attempt number 1. -/
def ainvoke_with_retry {α ε : Type} (maxRetries : Nat) (baseDelay : ℚ)
    (step : Nat → AttemptResult α ε) : RetryTrace α ε :=
  retryFrom maxRetries baseDelay step 1

/-! ## Analysis session loop (`run_analysis_session` in `base_agent_futu.py`)

Responses are modelled as `List Char`.  The oracle `resps k` is the text
extracted from the (successful) decision step of iteration `k`
(1-indexed); the claim under study concerns runs in which every step
succeeds, so the retry wrapper is absorbed into the oracle.  The Python
string operations used on the way out — membership (`in`), `str.replace`
and `str.strip()` — are embedded below. -/

/-- `STOP_SIGNAL` from `prompts/agent_prompt_futu.py`. -/
def STOP_SIGNAL : List Char := "<FINISH_SIGNAL>".toList

/-- Python substring membership `pat in s`. -/
def isSubstr (pat : List Char) : List Char → Bool
  | [] => pat.isEmpty
  | c :: rest => pat.isPrefixOf (c :: rest) || isSubstr pat rest

/-- Fuelled worker for `str.replace`: replace non-overlapping occurrences
of `pat` left to right.  Fuel `s.length` suffices for nonempty `pat`
because each step consumes at least one character. -/
def replaceAllAux (pat repl : List Char) : Nat → List Char → List Char
  | 0, s => s
  | _ + 1, [] => []
  | fuel + 1, c :: rest =>
    if pat ≠ [] ∧ pat.isPrefixOf (c :: rest) then
      repl ++ replaceAllAux pat repl fuel ((c :: rest).drop pat.length)
    else
      c :: replaceAllAux pat repl fuel rest

/-- Python `s.replace(pat, repl)` for nonempty `pat`. -/
def replaceAll (pat repl s : List Char) : List Char :=
  replaceAllAux pat repl s.length s

/-- The whitespace set of Python `str.strip()`. -/
def isPySpace (c : Char) : Bool :=
  c = ' ' || c = '\t' || c = '\n' || c = '\x0d' || c = '\x0b' || c = '\x0c'

/-- Python `s.strip()`: drop leading and trailing whitespace. -/
def stripWs (s : List Char) : List Char :=
  ((s.dropWhile isPySpace).reverse.dropWhile isPySpace).reverse

/-- The return transformation of `run_analysis_session`:
`final_response.replace(STOP_SIGNAL, "").strip()`. -/
def stripStopSignal (s : List Char) : List Char :=
  stripWs (replaceAll STOP_SIGNAL [] s)

/-- The `while current_step < self.max_steps` loop of
`run_analysis_session`, carrying the current step counter and the
`final_response` accumulator: each iteration increments the counter,
reads the step's response, records it as `final_response`, and breaks
when the response contains `STOP_SIGNAL`.  Returns the final step counter
and the last `final_response`. -/
def analysisLoop (resps : Nat → List Char) (maxSteps : Nat)
    (currentStep : Nat) (finalResponse : List Char) : Nat × List Char :=
  if currentStep < maxSteps then
    let r := resps (currentStep + 1)
    if isSubstr STOP_SIGNAL r then (currentStep + 1, r)
    else analysisLoop resps maxSteps (currentStep + 1) r
  else (currentStep, finalResponse)
termination_by maxSteps - currentStep

/-- Embedding of `run_analysis_session` for a run in which every decision
step succeeds: run the step loop from step counter 0 with
`final_response = ""`, then return the number of steps executed and
`final_response.replace(STOP_SIGNAL, "").strip()`. -/
def run_analysis_session (resps : Nat → List Char) (maxSteps : Nat) :
    Nat × List Char :=
  let out := analysisLoop resps maxSteps 0 []
  (out.1, stripStopSignal out.2)

/-! ## Quote formatting (`tool_futu_price.py`)

A market-snapshot row is an external input; its numeric fields are
modelled as rationals and `update_time` as a string.  Only the
formatting of the reply dictionaries is code of this repository. -/

/-- One row of the brokerage market-snapshot frame (all fields present). -/
structure SnapshotRow where
  code : String
  name : String
  last_price : ℚ
  open_price : ℚ
  high_price : ℚ
  low_price : ℚ
  prev_close_price : ℚ
  volume : ℚ
  turnover : ℚ
  turnover_rate : ℚ
  amplitude : ℚ
  update_time : String
  deriving Repr, DecidableEq

/-- One quote dictionary built by `get_futu_realtime_quote`; note the type
of its `change_rate` field: the code fills it with
`row.get("update_time", "")`, a string. -/
structure RealtimeQuote where
  code : String
  name : String
  last_price : ℚ
  open_price : ℚ
  high_price : ℚ
  low_price : ℚ
  prev_close_price : ℚ
  volume : ℚ
  turnover : ℚ
  turnover_rate : ℚ
  amplitude : ℚ
  change_rate : String
  update_time : String
  deriving Repr, DecidableEq

/-- The per-row quote dictionary of `get_futu_realtime_quote`. -/
def formatRealtimeQuote (row : SnapshotRow) : RealtimeQuote :=
  { code := row.code, name := row.name, last_price := row.last_price,
    open_price := row.open_price, high_price := row.high_price,
    low_price := row.low_price, prev_close_price := row.prev_close_price,
    volume := row.volume, turnover := row.turnover,
    turnover_rate := row.turnover_rate, amplitude := row.amplitude,
    change_rate := row.update_time, update_time := row.update_time }

/-- Embedding of the formatting loop of `get_futu_realtime_quote` over the
snapshot rows returned for the requested symbols. -/
def get_futu_realtime_quote (rows : List SnapshotRow) : List RealtimeQuote :=
  rows.map formatRealtimeQuote

/-- Python 3 `round` to an integer: round half to even. -/
def roundHalfEven (q : ℚ) : ℤ :=
  let f := ⌊q⌋
  let frac := q - (f : ℚ)
  if frac < 1 / 2 then f
  else if 1 / 2 < frac then f + 1
  else if f % 2 = 0 then f else f + 1

/-- Python `round(x, 2)` (floats modelled as rationals). -/
def pyRound2 (q : ℚ) : ℚ := (roundHalfEven (q * 100) : ℚ) / 100

/-- The reply dictionary of `get_futu_stock_price`; here `change_rate` is
numeric. -/
structure StockPriceReply where
  code : String
  name : String
  last_price : ℚ
  open_price : ℚ
  high_price : ℚ
  low_price : ℚ
  prev_close_price : ℚ
  change_rate : ℚ
  volume : ℚ
  turnover : ℚ
  deriving Repr, DecidableEq

/-- Embedding of the reply construction of `get_futu_stock_price` on the
first snapshot row: `change_rate = round((last - prev_close) / prev_close
* 100, 2)` when `prev_close != 0`, else `0`. -/
def get_futu_stock_price (row : SnapshotRow) : StockPriceReply :=
  { code := row.code, name := row.name, last_price := row.last_price,
    open_price := row.open_price, high_price := row.high_price,
    low_price := row.low_price, prev_close_price := row.prev_close_price,
    change_rate :=
      if row.prev_close_price ≠ 0 then
        pyRound2 ((row.last_price - row.prev_close_price) / row.prev_close_price * 100)
      else 0,
    volume := row.volume, turnover := row.turnover }

/-! ## Trade tools (`buy_futu` / `sell_futu` in `tool_futu_trade.py`)

The brokerage is an oracle; the observable effects of one tool call are
whether the per-signature position lock was taken, whether
`place_order` was invoked, and the ledger file after the call.  The
`int(amount)` parse is modelled by an `Option Int` argument (`none` when
the Python parse raises `ValueError`), and the `SIGNATURE` config lookup
by an `Option String`. -/

/-- Python `str.lstrip("0")` on a character list. -/
def lstripChar (c : Char) : List Char → List Char
  | [] => []
  | x :: rest => if x = c then lstripChar c rest else x :: rest

/-- Python `str.zfill(width)`: left-pad with zeros to `width`. -/
def zfill (width : Nat) (s : List Char) : List Char :=
  List.replicate (width - s.length) '0' ++ s

/-- Embedding of `convert_symbol_to_futu`. -/
def convert_symbol_to_futu (symbol market : String) : String :=
  if market.toUpper = "HK" then
    "HK." ++ String.mk (zfill 5 (lstripChar '0' symbol.toList))
  else
    "US." ++ symbol.toUpper

/-- The success dictionary returned by `buy_futu` / `sell_futu`. -/
structure TradeReply where
  action : String
  symbol : String
  amount : Int
  price : ℚ
  order_id : String
  order_status : String
  positions : List (String × ℚ)
  deriving Repr, DecidableEq

/-- Observable outcome of one `buy_futu` / `sell_futu` call: the returned
dictionary (error message or success payload), whether the position lock
was acquired, whether `place_order` was invoked, and the position-ledger
file after the call. -/
structure TradeExec where
  result : Except String TradeReply
  lockTaken : Bool
  orderPlaced : Bool
  ledger : Option (List LedgerLine)
  deriving Repr

/-- Brokerage oracle for `buy_futu`: connection availability, the snapshot
quote (`none` = failed request, `some none` = empty frame, `some (some p)`
= last price `p`), the `place_order` reply as a function of the wire
order price (`none` = non-OK status), and the post-trade position and
cash queries. -/
structure BuyOracle where
  ctxAvailable : Bool
  snapshot : Option (Option ℚ)
  placeOrder : ℚ → Option (String × String)
  postPositions : Option (List (String × ℚ))
  postCash : Option ℚ

/-- Brokerage oracle for `sell_futu`: as for buys, plus the pre-trade
holdings query rows `(code, qty, can_sell_qty)`. -/
structure SellOracle where
  ctxAvailable : Bool
  prePositions : Option (List (String × Int × Int))
  snapshot : Option (Option ℚ)
  placeOrder : ℚ → Option (String × String)
  postPositions : Option (List (String × ℚ))
  postCash : Option ℚ

/-- The `positions_dict` assembled after a filled order: the post-trade
position rows, then `CASH` from the funds query when it succeeds. -/
def positionsDict (post : Option (List (String × ℚ))) (cash : Option ℚ) :
    List (String × ℚ) :=
  post.getD [] ++
    match cash with
    | some c => [("CASH", c)]
    | none => []

/-- The holdings lookup of `sell_futu`: the first row whose code matches
gives `(position_qty, can_sell_qty)`, defaulting to `(0, 0)`. -/
def lookupHolding (rows : List (String × Int × Int)) (code : String) : Int × Int :=
  match rows with
  | [] => (0, 0)
  | (c, q, cs) :: rest => if c = code then (q, cs) else lookupHolding rest code

/-- Embedding of `buy_futu`.  The guards run in source order: futu-api
availability, `SIGNATURE`, the `int(amount)` parse, positivity, the
OpenD connection, the quote request; only then is the position lock
taken, the order placed, and (on success) the trade recorded. -/
def buy_futu (futuAvailable : Bool) (signature : Option String)
    (amountArg : Option Int) (symbol market orderType : String)
    (oracle : BuyOracle) (date : String)
    (ledger : Option (List LedgerLine)) : TradeExec :=
  if !futuAvailable then
    { result := .error "futu-api not installed", lockTaken := false,
      orderPlaced := false, ledger := ledger }
  else
    match signature with
    | none =>
      { result := .error "SIGNATURE not set", lockTaken := false,
        orderPlaced := false, ledger := ledger }
    | some _ =>
      match amountArg with
      | none =>
        { result := .error "invalid amount format", lockTaken := false,
          orderPlaced := false, ledger := ledger }
      | some amount =>
        if amount ≤ 0 then
          { result := .error "amount must be positive", lockTaken := false,
            orderPlaced := false, ledger := ledger }
        else
          let futuSymbol := convert_symbol_to_futu symbol market
          if !oracle.ctxAvailable then
            { result := .error "cannot connect to OpenD", lockTaken := false,
              orderPlaced := false, ledger := ledger }
          else
            match oracle.snapshot with
            | none =>
              { result := .error "quote request failed", lockTaken := false,
                orderPlaced := false, ledger := ledger }
            | some priceOpt =>
              let currentPrice := priceOpt.getD 0
              let orderPrice := if orderType.toUpper = "LIMIT" then currentPrice else 0
              match oracle.placeOrder orderPrice with
              | none =>
                { result := .error "place order failed", lockTaken := true,
                  orderPlaced := true, ledger := ledger }
              | some (orderId, orderStatus) =>
                let posDict := positionsDict oracle.postPositions oracle.postCash
                let newLedger :=
                  record_trade_to_file ledger date
                    { action := "buy", symbol := futuSymbol, amount := amount,
                      price := currentPrice, order_market := market,
                      order_id := orderId }
                    posDict
                { result := .ok
                    { action := "buy", symbol := futuSymbol, amount := amount,
                      price := currentPrice, order_id := orderId,
                      order_status := orderStatus, positions := posDict },
                  lockTaken := true, orderPlaced := true,
                  ledger := some newLedger }

/-- Embedding of `sell_futu`.  Same validation prefix as `buy_futu`, then
the holdings checks (`position_qty == 0`, `can_sell_qty < amount`) and the
quote request, all before the position lock. -/
def sell_futu (futuAvailable : Bool) (signature : Option String)
    (amountArg : Option Int) (symbol market orderType : String)
    (oracle : SellOracle) (date : String)
    (ledger : Option (List LedgerLine)) : TradeExec :=
  if !futuAvailable then
    { result := .error "futu-api not installed", lockTaken := false,
      orderPlaced := false, ledger := ledger }
  else
    match signature with
    | none =>
      { result := .error "SIGNATURE not set", lockTaken := false,
        orderPlaced := false, ledger := ledger }
    | some _ =>
      match amountArg with
      | none =>
        { result := .error "invalid amount format", lockTaken := false,
          orderPlaced := false, ledger := ledger }
      | some amount =>
        if amount ≤ 0 then
          { result := .error "amount must be positive", lockTaken := false,
            orderPlaced := false, ledger := ledger }
        else
          let futuSymbol := convert_symbol_to_futu symbol market
          if !oracle.ctxAvailable then
            { result := .error "cannot connect to OpenD", lockTaken := false,
              orderPlaced := false, ledger := ledger }
          else
            match oracle.prePositions with
            | none =>
              { result := .error "position query failed", lockTaken := false,
                orderPlaced := false, ledger := ledger }
            | some rows =>
              let held := lookupHolding rows futuSymbol
              if held.1 = 0 then
                { result := .error "no holding in symbol", lockTaken := false,
                  orderPlaced := false, ledger := ledger }
              else if held.2 < amount then
                { result := .error "insufficient sellable quantity",
                  lockTaken := false, orderPlaced := false, ledger := ledger }
              else
                match oracle.snapshot with
                | none =>
                  { result := .error "quote request failed", lockTaken := false,
                    orderPlaced := false, ledger := ledger }
                | some priceOpt =>
                  let currentPrice := priceOpt.getD 0
                  let orderPrice := if orderType.toUpper = "LIMIT" then currentPrice else 0
                  match oracle.placeOrder orderPrice with
                  | none =>
                    { result := .error "place order failed", lockTaken := true,
                      orderPlaced := true, ledger := ledger }
                  | some (orderId, orderStatus) =>
                    let posDict := positionsDict oracle.postPositions oracle.postCash
                    let newLedger :=
                      record_trade_to_file ledger date
                        { action := "sell", symbol := futuSymbol,
                          amount := amount, price := currentPrice,
                          order_market := market, order_id := orderId }
                        posDict
                    { result := .ok
                        { action := "sell", symbol := futuSymbol,
                          amount := amount, price := currentPrice,
                          order_id := orderId, order_status := orderStatus,
                          positions := posDict },
                      lockTaken := true, orderPlaced := true,
                      ledger := some newLedger }

/-! ## Theorems -/

/-- C5: for every market identifier and every instant whose market-local
weekday is Saturday (5) or Sunday (6), `get_market_status` returns
`session = "WEEKEND"`, `is_trading = false` and `is_weekend = true`,
independent of the market's session window table (the minutes-since-
midnight argument is universally quantified). -/
theorem weekend_override (market : String) (weekday currentTime : Nat)
    (h : weekday = 5 ∨ weekday = 6) :
    (get_market_status market weekday currentTime).session = "WEEKEND" ∧
    (get_market_status market weekday currentTime).is_trading = false ∧
    (get_market_status market weekday currentTime).is_weekend = true := by
  have h5 : weekday ≥ 5 := by omega
  simp [get_market_status, h5]

/-- Witness for C5: Sunday on the US market at local 10:00. -/
theorem weekend_override_witness :
    (get_market_status "US" 6 600).session = "WEEKEND" ∧
    (get_market_status "US" 6 600).is_trading = false ∧
    (get_market_status "US" 6 600).is_weekend = true :=
  weekend_override "US" 6 600 (Or.inr rfl)

/-- C6: on a non-weekend day the HK market classifies a local minute-of-day
`t` as trading exactly when `570 ≤ t < 720` (session `"MORNING"`) or
`780 ≤ t < 960` (session `"AFTERNOON"`); the windows are half-open
`[start, end)`. -/
theorem hk_session_windows (weekday t : Nat) (h : weekday < 5) :
    ((get_market_status "HK" weekday t).is_trading = true ↔
      (570 ≤ t ∧ t < 720) ∨ (780 ≤ t ∧ t < 960)) ∧
    (570 ≤ t ∧ t < 720 → (get_market_status "HK" weekday t).session = "MORNING") ∧
    (780 ≤ t ∧ t < 960 → (get_market_status "HK" weekday t).session = "AFTERNOON") := by
  have h5 : ¬ weekday ≥ 5 := by omega
  have hus : ("HK" : String) ≠ "US" := by decide
  simp only [get_market_status, winStart, winEnd, hk_morning, hk_afternoon, h5,
    hus, if_false, if_neg, ite_false]
  norm_num
  refine ⟨?_, ?_, ?_⟩
  · split_ifs with h1 h2 <;> simp_all
  · intro h1 h2
    split_ifs with hm ha <;> simp_all
  · intro h1 h2
    split_ifs with hm ha <;> simp_all
    omega

/-- Witness for C6: Monday at the 09:30:00 boundary (`t = 570`, trading,
morning session); the spec's other boundary instants follow from the same
theorem. -/
theorem hk_session_windows_witness :
    (((get_market_status "HK" 0 570).is_trading = true ↔
      (570 ≤ 570 ∧ 570 < 720) ∨ (780 ≤ 570 ∧ 570 < 960)) ∧
    (570 ≤ 570 ∧ 570 < 720 → (get_market_status "HK" 0 570).session = "MORNING") ∧
    (780 ≤ 570 ∧ 570 < 960 → (get_market_status "HK" 0 570).session = "AFTERNOON")) ∧
    (get_market_status "HK" 0 569).is_trading = false ∧
    (get_market_status "HK" 0 719).is_trading = true ∧
    (get_market_status "HK" 0 720).is_trading = false :=
  ⟨hk_session_windows 0 570 (by norm_num), by decide, by decide, by decide⟩

/-- C2 refuted at a concrete input: on a Sunday (`weekday = 6`) HK cycle
with `only_trading_hours` unset, the claim predicts the trading step runs
(skip iff flag set and not trading), but `scheduler_loop`'s `elif
status["is_weekend"]` branch skips it. -/
theorem scheduler_skip_claim_counterexample :
    ¬ (shouldRunCycle false (get_market_status "HK" 6 600) = false ↔
        (false = true ∧ (get_market_status "HK" 6 600).is_trading = false)) := by
  decide

/-- C2 amended: a cycle skips the trading step if and only if the
`only_trading_hours` flag is set and the scheduler reports `is_trading`
false, or the status is a weekend; with the flag unset the step is
invoked every non-weekend cycle, but weekend cycles are still skipped. -/
theorem scheduler_skip_iff (onlyTradingHours : Bool) (status : MarketStatus) :
    shouldRunCycle onlyTradingHours status = false ↔
      (onlyTradingHours = true ∧ status.is_trading = false) ∨
        status.is_weekend = true := by
  unfold shouldRunCycle
  cases onlyTradingHours <;>
    cases h1 : status.is_trading <;>
      cases h2 : status.is_weekend <;> simp [h1, h2]

/-- `idsOf` distributes over list append. -/
theorem idsOf_append (l1 l2 : List LedgerLine) :
    idsOf (l1 ++ l2) = idsOf l1 ++ idsOf l2 := by
  simp [idsOf]

/-- Appending one parseable line raises the max-id scan to the max of the
old scan and the new id. -/
theorem scanMaxId_snoc (l : List LedgerLine) (r : LedgerRecord) :
    scanMaxId (some (l ++ [.valid r])) = max (scanMaxId (some l)) r.id := by
  simp [scanMaxId, List.foldl_append]

/-- C7: a second `register_agent` call for the same signature — with a
different wall-clock string, market, trade environment, initial cash and
instrument list — when the position file already exists is a no-op that
leaves the file unchanged, so the ledger's first entry (id 0, initial
positions of the first call) is untouched. -/
theorem register_agent_idempotent (d1 m1 e1 d2 m2 e2 : String) (c1 c2 : ℚ)
    (s1 s2 : List String) :
    register_agent (some (register_agent none d1 m1 e1 c1 s1)) d2 m2 e2 c2 s2 =
      register_agent none d1 m1 e1 c1 s1 ∧
    (register_agent (some (register_agent none d1 m1 e1 c1 s1)) d2 m2 e2 c2 s2).head? =
      some (.valid
        { date := d1, id := 0, act := none, reg_market := some m1,
          reg_trade_env := some e1, positions := initPositions c1 s1 }) :=
  ⟨rfl, rfl⟩

/-- C1: after one registration (which writes id 0) and `n` appends via
`record_trade_to_file` (each of which re-scans the durable file and
assigns `max + 1`, holding no in-memory counter), the ids read back in
file order are exactly `0, 1, …, n`, and the file scan recovers `n` as
the current maximum — so the next id is correct after any restart. -/
theorem ledger_ids_sequential (date market tradeEnv : String) (initialCash : ℚ)
    (symbols : List String) (dates : Nat → String) (acts : Nat → TradeAction)
    (snaps : Nat → List (String × ℚ)) (n : Nat) :
    idsOf (ledgerAfter date market tradeEnv initialCash symbols dates acts snaps n) =
      List.range (n + 1) ∧
    scanMaxId (some (ledgerAfter date market tradeEnv initialCash symbols dates acts snaps n)) = n := by
  induction n with
  | zero => exact ⟨rfl, rfl⟩
  | succ k ih =>
    obtain ⟨hids, hscan⟩ := ih
    have hrec : ledgerAfter date market tradeEnv initialCash symbols dates acts snaps (k + 1) =
        ledgerAfter date market tradeEnv initialCash symbols dates acts snaps k ++
          [.valid
            { date := dates k,
              id := scanMaxId (some (ledgerAfter date market tradeEnv initialCash symbols dates acts snaps k)) + 1,
              act := some (acts k), reg_market := none, reg_trade_env := none,
              positions := snaps k }] := rfl
    constructor
    · rw [hrec, idsOf_append, hids, hscan]
      simp [idsOf, List.range_succ]
    · rw [hrec, scanMaxId_snoc, hscan]
      simp

/-- C8 at the failing input: a ledger whose registration line is followed
by one crash-truncated line.  The max-id scan of `record_trade_to_file`
tolerates it (the scan still returns 0), but `get_position_summary`'s
unguarded `json.loads` loop fails the whole read with a parse error
instead of skipping the bad line. -/
theorem position_summary_fails_on_partial_line :
    get_position_summary (some
      [.valid
        { date := "2025-01-06 09:30:00", id := 0, act := none,
          reg_market := some "HK", reg_trade_env := some "SIMULATE",
          positions := [("CASH", 100000)] },
       .invalid]) = .error "JSONDecodeError" ∧
    scanMaxId (some
      [.valid
        { date := "2025-01-06 09:30:00", id := 0, act := none,
          reg_market := some "HK", reg_trade_env := some "SIMULATE",
          positions := [("CASH", 100000)] },
       .invalid]) = 0 :=
  ⟨rfl, rfl⟩

/-- Retry loop, all-failures case, from an arbitrary attempt number `a`
with `1 ≤ a ≤ N`: the loop performs `N + 1 - a` calls, sleeps
`d * a, d * (a + 1), …, d * (N - 1)`, and re-raises the failure of
attempt `N`. -/
theorem retryFrom_fail_spec {α ε : Type} (N : Nat) (d : ℚ)
    (step : Nat → AttemptResult α ε) :
    ∀ m a, 1 ≤ a → a ≤ N → N - a = m →
      (∀ k, a ≤ k → k ≤ N → ∃ e, step k = .fail e) →
      ∃ e, step N = .fail e ∧
        retryFrom N d step a =
          { calls := N + 1 - a,
            sleeps := (List.range (N - a)).map (fun i => d * ((a + i : Nat) : ℚ)),
            outcome := .raised e } := by
  intro m
  induction m with
  | zero =>
    intro a ha1 haN hm hfail
    have haeq : a = N := by omega
    subst haeq
    obtain ⟨e, he⟩ := hfail a (le_refl a) (le_refl a)
    refine ⟨e, he, ?_⟩
    rw [retryFrom]
    simp [he, Nat.lt_irrefl]
  | succ m ih =>
    intro a ha1 haN hm hfail
    have haN' : a < N := by omega
    obtain ⟨ea, hea⟩ := hfail a (le_refl a) (le_of_lt haN')
    obtain ⟨e, he, hrest⟩ :=
      ih (a + 1) (by omega) (by omega) (by omega)
        (fun k hk1 hk2 => hfail k (by omega) hk2)
    refine ⟨e, he, ?_⟩
    rw [retryFrom]
    have hgt : ¬ a > N := by omega
    have hne : a ≠ N := by omega
    simp only [hgt, if_false, hea, hne, ite_false]
    rw [hrest]
    have hsleeps : (List.range (N - a)).map (fun i => d * ((a + i : Nat) : ℚ)) =
        d * (a : ℚ) ::
          (List.range (N - (a + 1))).map (fun i => d * ((a + 1 + i : Nat) : ℚ)) := by
      have hlen : N - a = (N - (a + 1)) + 1 := by omega
      rw [hlen, List.range_succ_eq_map, List.map_cons, List.map_map]
      refine List.cons_eq_cons.mpr ⟨by norm_num, ?_⟩
      apply List.map_congr_left
      intro i _
      simp only [Function.comp_apply, Nat.succ_eq_add_one]
      have h2 : a + (i + 1) = a + 1 + i := by omega
      rw [h2]
    have hcalls : N + 1 - a = (N + 1 - (a + 1)) + 1 := by omega
    rw [hsleeps, hcalls]

/-- Retry loop, first-success case, from an arbitrary attempt number `a`:
if attempt `k` (`a ≤ k ≤ N`) succeeds and every attempt in `[a, k)`
fails, the loop performs `k + 1 - a` calls, sleeps
`d * a, …, d * (k - 1)`, and returns the successful result. -/
theorem retryFrom_ok_spec {α ε : Type} (N : Nat) (d : ℚ)
    (step : Nat → AttemptResult α ε) (v : α) :
    ∀ m a k, 1 ≤ a → a ≤ k → k ≤ N → k - a = m → step k = .ok v →
      (∀ j, a ≤ j → j < k → ∃ e, step j = .fail e) →
      retryFrom N d step a =
        { calls := k + 1 - a,
          sleeps := (List.range (k - a)).map (fun i => d * ((a + i : Nat) : ℚ)),
          outcome := .returned v } := by
  intro m
  induction m with
  | zero =>
    intro a k ha1 hak hkN hm hok _
    have haeq : a = k := by omega
    subst haeq
    rw [retryFrom]
    have hgt : ¬ a > N := by omega
    simp [hgt, hok]
  | succ m ih =>
    intro a k ha1 hak hkN hm hok hfail
    have hak' : a < k := by omega
    obtain ⟨ea, hea⟩ := hfail a (le_refl a) hak'
    have hrest :=
      ih (a + 1) k (by omega) (by omega) hkN (by omega) hok
        (fun j hj1 hj2 => hfail j (by omega) hj2)
    rw [retryFrom]
    have hgt : ¬ a > N := by omega
    have hne : a ≠ N := by omega
    simp only [hgt, if_false, hea, hne, ite_false]
    rw [hrest]
    have hsleeps : (List.range (k - a)).map (fun i => d * ((a + i : Nat) : ℚ)) =
        d * (a : ℚ) ::
          (List.range (k - (a + 1))).map (fun i => d * ((a + 1 + i : Nat) : ℚ)) := by
      have hlen : k - a = (k - (a + 1)) + 1 := by omega
      rw [hlen, List.range_succ_eq_map, List.map_cons, List.map_map]
      refine List.cons_eq_cons.mpr ⟨by norm_num, ?_⟩
      apply List.map_congr_left
      intro i _
      simp only [Function.comp_apply, Nat.succ_eq_add_one]
      have h2 : a + (i + 1) = a + 1 + i := by omega
      rw [h2]
    have hcalls : k + 1 - a = (k + 1 - (a + 1)) + 1 := by omega
    rw [hsleeps, hcalls]

/-- C3: for `max_retries = N ≥ 1`, (a) if every attempt fails,
`_ainvoke_with_retry` invokes the step exactly `N` times, sleeps
`d·1, d·2, …, d·(N-1)` after the failed attempts `1 .. N-1`, and
re-raises the exception of the final attempt; (b) if attempt `k ≤ N` is
the first to succeed, its result is returned after exactly `k`
invocations with sleeps `d·1, …, d·(k-1)` and no further attempts or
sleeps. -/
theorem retry_wrapper_spec {α ε : Type} (N : Nat) (d : ℚ)
    (step : Nat → AttemptResult α ε) (hN : 1 ≤ N) :
    ((∀ k, 1 ≤ k → k ≤ N → ∃ e, step k = .fail e) →
      ∃ e, step N = .fail e ∧
        ainvoke_with_retry N d step =
          { calls := N,
            sleeps := (List.range (N - 1)).map (fun i => d * ((1 + i : Nat) : ℚ)),
            outcome := .raised e }) ∧
    (∀ k v, 1 ≤ k → k ≤ N → step k = .ok v →
      (∀ j, 1 ≤ j → j < k → ∃ e, step j = .fail e) →
      ainvoke_with_retry N d step =
        { calls := k,
          sleeps := (List.range (k - 1)).map (fun i => d * ((1 + i : Nat) : ℚ)),
          outcome := .returned v }) := by
  constructor
  · intro hfail
    obtain ⟨e, he, hrun⟩ :=
      retryFrom_fail_spec N d step (N - 1) 1 (le_refl 1) hN rfl
        (fun k hk1 hk2 => hfail k hk1 hk2)
    refine ⟨e, he, ?_⟩
    unfold ainvoke_with_retry
    have hN1 : N + 1 - 1 = N := by omega
    rw [hrun, hN1]
  · intro k v hk1 hkN hok hfail
    have hrun :=
      retryFrom_ok_spec N d step v (k - 1) 1 k (le_refl 1) hk1 hkN (by omega) hok
        (fun j hj1 hj2 => hfail j hj1 hj2)
    unfold ainvoke_with_retry
    have hk1' : k + 1 - 1 = k := by omega
    rw [hrun, hk1']

/-- Witness for C3: `max_retries = 3`, `base_delay = 1`, a step that
always fails — exactly 3 calls, sleeps `[1, 2]`, and the failure
re-raised. -/
theorem retry_wrapper_spec_witness :
    ainvoke_with_retry 3 1 (fun _ => (.fail "boom" : AttemptResult Nat String)) =
      { calls := 3, sleeps := [1, 2], outcome := .raised "boom" } := by
  obtain ⟨e, he, hrun⟩ :=
    (retry_wrapper_spec 3 1 (fun _ => (.fail "boom" : AttemptResult Nat String))
      (by norm_num)).1 (fun k _ _ => ⟨"boom", rfl⟩)
  have heq : e = "boom" := by
    have := he.symm
    injection this
  subst heq
  rw [hrun]
  norm_num [List.range_succ]

/-- Step loop, stop-token case: starting from step counter `c`, if step
`k` (`c < k ≤ M`) is the first whose response contains the stop token,
the loop returns `(k, resps k)`. -/
theorem analysisLoop_stop (resps : Nat → List Char) (M : Nat) :
    ∀ m c k fr, c < k → k ≤ M → k - c = m + 1 →
      isSubstr STOP_SIGNAL (resps k) = true →
      (∀ j, c < j → j < k → isSubstr STOP_SIGNAL (resps j) = false) →
      analysisLoop resps M c fr = (k, resps k) := by
  intro m
  induction m with
  | zero =>
    intro c k fr hck hkM hm hstop _
    have hkc : k = c + 1 := by omega
    subst hkc
    rw [analysisLoop]
    have hcM : c < M := by omega
    simp [hcM, hstop]
  | succ m ih =>
    intro c k fr hck hkM hm hstop hbefore
    have hcM : c < M := by omega
    have hnext : isSubstr STOP_SIGNAL (resps (c + 1)) = false :=
      hbefore (c + 1) (by omega) (by omega)
    rw [analysisLoop]
    simp only [hcM, if_true, hnext, Bool.false_eq_true, ite_false]
    exact ih (c + 1) k (resps (c + 1)) (by omega) hkM (by omega) hstop
      (fun j hj1 hj2 => hbefore j (by omega) hj2)

/-- Step loop, exhaustion case: starting from step counter `c ≤ M` with no
later response containing the stop token, the loop runs to the step limit
and ends with the last observed response (or the accumulator if no
iteration ran). -/
theorem analysisLoop_exhaust (resps : Nat → List Char) (M : Nat) :
    ∀ m c fr, c ≤ M → M - c = m →
      (∀ j, c < j → j ≤ M → isSubstr STOP_SIGNAL (resps j) = false) →
      analysisLoop resps M c fr = (M, if c = M then fr else resps M) := by
  intro m
  induction m with
  | zero =>
    intro c fr hcM hm _
    have hc : c = M := by omega
    subst hc
    rw [analysisLoop]
    simp
  | succ m ih =>
    intro c fr hcM hm hnone
    have hcM' : c < M := by omega
    have hnext : isSubstr STOP_SIGNAL (resps (c + 1)) = false :=
      hnone (c + 1) (by omega) (by omega)
    rw [analysisLoop]
    simp only [hcM', if_true, hnext, Bool.false_eq_true, ite_false]
    rw [ih (c + 1) (resps (c + 1)) (by omega) (by omega)
      (fun j hj1 hj2 => hnone j (by omega) hj2)]
    have hcne : c ≠ M := by omega
    by_cases he : c + 1 = M
    · simp [he, hcne]
    · simp [he, hcne]

/-- C4: for a controller run with `max_steps = M` in which every decision
step succeeds, (a) if step `k ≤ M` produces the first response containing
the stop token, the loop terminates after exactly `k` steps and the
session returns that response with the stop token stripped
(`replace(STOP_SIGNAL, "").strip()`); (b) if no response contains the
token, the loop runs exactly `M` steps and the last observed response is
returned — through the same stripping, which removes nothing but
surrounding whitespace from token-free text — as a normal result. -/
theorem analysis_session_spec (resps : Nat → List Char) (M : Nat) :
    (∀ k, 1 ≤ k → k ≤ M → isSubstr STOP_SIGNAL (resps k) = true →
      (∀ j, 1 ≤ j → j < k → isSubstr STOP_SIGNAL (resps j) = false) →
      run_analysis_session resps M = (k, stripStopSignal (resps k))) ∧
    (1 ≤ M → (∀ j, 1 ≤ j → j ≤ M → isSubstr STOP_SIGNAL (resps j) = false) →
      run_analysis_session resps M = (M, stripStopSignal (resps M))) := by
  constructor
  · intro k hk1 hkM hstop hbefore
    unfold run_analysis_session
    rw [analysisLoop_stop resps M (k - 1) 0 k [] (by omega) hkM (by omega) hstop
      (fun j hj1 hj2 => hbefore j (by omega) hj2)]
  · intro hM hnone
    unfold run_analysis_session
    rw [analysisLoop_exhaust resps M M 0 [] (by omega) (by omega)
      (fun j hj1 hj2 => hnone j (by omega) hj2)]
    have h0M : (0 : Nat) ≠ M := by omega
    simp [h0M]

/-- Witness for C4: `max_steps = 5`, step 2 is the first response
containing the stop token — the session stops after exactly 2 steps and
returns the token-stripped text. -/
theorem analysis_session_spec_witness :
    run_analysis_session
      (fun n => if n = 2 then "ok <FINISH_SIGNAL>".toList else "thinking".toList) 5 =
      (2, "ok".toList) := by
  have h :=
    (analysis_session_spec
      (fun n => if n = 2 then "ok <FINISH_SIGNAL>".toList else "thinking".toList) 5).1
      2 (by norm_num) (by norm_num) (by decide)
      (by
        intro j hj1 hj2
        have hj : j = 1 := by omega
        subst hj
        decide)
  rw [h]
  decide

/-- C9: in the multi-symbol path `get_futu_realtime_quote`, the
`change_rate` field of every returned quote is a copy of the row's
`update_time` string (and is unaffected by the row's prices), whereas the
single-stock path `get_futu_stock_price` computes `change_rate` as a
numeric percentage from `last_price` and `prev_close_price` (and is
unaffected by the row's `update_time`). -/
theorem change_rate_provenance :
    (∀ rows : List SnapshotRow, ∀ q ∈ get_futu_realtime_quote rows,
      q.change_rate = q.update_time) ∧
    (∀ (row : SnapshotRow) (p pc : ℚ),
      (formatRealtimeQuote { row with last_price := p, prev_close_price := pc }).change_rate =
        (formatRealtimeQuote row).change_rate) ∧
    (∀ (row : SnapshotRow) (u : String),
      (get_futu_stock_price { row with update_time := u }).change_rate =
        (get_futu_stock_price row).change_rate) ∧
    (∀ row : SnapshotRow, row.prev_close_price ≠ 0 →
      (get_futu_stock_price row).change_rate =
        pyRound2 ((row.last_price - row.prev_close_price) / row.prev_close_price * 100)) := by
  refine ⟨?_, ?_, ?_, ?_⟩
  · intro rows q hq
    obtain ⟨row, _, rfl⟩ := List.mem_map.mp hq
    rfl
  · intro row p pc
    rfl
  · intro row u
    rfl
  · intro row h
    simp [get_futu_stock_price, h]

/-- Witness for C9: a concrete snapshot row with `prev_close = 100` and
`last = 103` — the single-stock change rate is the numeric percentage. -/
theorem change_rate_provenance_witness :
    (get_futu_stock_price
      { code := "HK.00700", name := "TX", last_price := 103, open_price := 100,
        high_price := 104, low_price := 99, prev_close_price := 100,
        volume := 1000, turnover := 100000, turnover_rate := 1,
        amplitude := 5, update_time := "2025-01-06 10:00:00" }).change_rate =
      pyRound2 ((103 - 100) / 100 * 100) :=
  change_rate_provenance.2.2.2 _ (by norm_num)

/-- C10: a `buy_futu` or `sell_futu` call whose `SIGNATURE` configuration
value is unset, or whose amount argument fails the `int` parse or parses
to a non-positive value, returns an error dictionary with no side
effects: the position lock is not acquired, `place_order` is never
invoked, and the position ledger is unchanged. -/
theorem trade_validation_no_side_effects
    (futuAvailable : Bool) (signature : Option String) (amountArg : Option Int)
    (symbol market orderType : String) (bo : BuyOracle) (so : SellOracle)
    (date : String) (ledger : Option (List LedgerLine))
    (h : signature = none ∨ amountArg = none ∨ ∃ n, amountArg = some n ∧ n ≤ 0) :
    ((∃ msg, (buy_futu futuAvailable signature amountArg symbol market orderType
        bo date ledger).result = .error msg) ∧
      (buy_futu futuAvailable signature amountArg symbol market orderType
        bo date ledger).lockTaken = false ∧
      (buy_futu futuAvailable signature amountArg symbol market orderType
        bo date ledger).orderPlaced = false ∧
      (buy_futu futuAvailable signature amountArg symbol market orderType
        bo date ledger).ledger = ledger) ∧
    ((∃ msg, (sell_futu futuAvailable signature amountArg symbol market orderType
        so date ledger).result = .error msg) ∧
      (sell_futu futuAvailable signature amountArg symbol market orderType
        so date ledger).lockTaken = false ∧
      (sell_futu futuAvailable signature amountArg symbol market orderType
        so date ledger).orderPlaced = false ∧
      (sell_futu futuAvailable signature amountArg symbol market orderType
        so date ledger).ledger = ledger) := by
  cases futuAvailable with
  | false =>
    exact ⟨⟨⟨"futu-api not installed", rfl⟩, rfl, rfl, rfl⟩,
      ⟨⟨"futu-api not installed", rfl⟩, rfl, rfl, rfl⟩⟩
  | true =>
    rcases h with hsig | hamt | ⟨n, hamt, hn⟩
    · subst hsig
      cases amountArg <;>
        exact ⟨⟨⟨"SIGNATURE not set", rfl⟩, rfl, rfl, rfl⟩,
          ⟨⟨"SIGNATURE not set", rfl⟩, rfl, rfl, rfl⟩⟩
    · subst hamt
      cases signature with
      | none =>
        exact ⟨⟨⟨"SIGNATURE not set", rfl⟩, rfl, rfl, rfl⟩,
          ⟨⟨"SIGNATURE not set", rfl⟩, rfl, rfl, rfl⟩⟩
      | some s =>
        exact ⟨⟨⟨"invalid amount format", rfl⟩, rfl, rfl, rfl⟩,
          ⟨⟨"invalid amount format", rfl⟩, rfl, rfl, rfl⟩⟩
    · subst hamt
      cases signature with
      | none =>
        exact ⟨⟨⟨"SIGNATURE not set", rfl⟩, rfl, rfl, rfl⟩,
          ⟨⟨"SIGNATURE not set", rfl⟩, rfl, rfl, rfl⟩⟩
      | some s =>
        constructor
        · refine ⟨⟨"amount must be positive", ?_⟩, ?_, ?_, ?_⟩ <;>
            simp [buy_futu, hn]
        · refine ⟨⟨"amount must be positive", ?_⟩, ?_, ?_, ?_⟩ <;>
            simp [sell_futu, hn]

/-- Witness for C10: a concrete buy/sell of amount `0` with a live oracle
— both tools report an error and leave the (absent) ledger untouched. -/
theorem trade_validation_no_side_effects_witness :
    ((∃ msg, (buy_futu true (some "agent1") (some 0) "00700" "HK" "MARKET"
        { ctxAvailable := true, snapshot := some (some 10),
          placeOrder := fun _ => none, postPositions := none, postCash := none }
        "2025-01-06" none).result = .error msg) ∧
      (buy_futu true (some "agent1") (some 0) "00700" "HK" "MARKET"
        { ctxAvailable := true, snapshot := some (some 10),
          placeOrder := fun _ => none, postPositions := none, postCash := none }
        "2025-01-06" none).lockTaken = false ∧
      (buy_futu true (some "agent1") (some 0) "00700" "HK" "MARKET"
        { ctxAvailable := true, snapshot := some (some 10),
          placeOrder := fun _ => none, postPositions := none, postCash := none }
        "2025-01-06" none).orderPlaced = false ∧
      (buy_futu true (some "agent1") (some 0) "00700" "HK" "MARKET"
        { ctxAvailable := true, snapshot := some (some 10),
          placeOrder := fun _ => none, postPositions := none, postCash := none }
        "2025-01-06" none).ledger = none) ∧
    ((∃ msg, (sell_futu true (some "agent1") (some 0) "00700" "HK" "MARKET"
        { ctxAvailable := true, prePositions := some [("HK.00700", 100, 100)],
          snapshot := some (some 10), placeOrder := fun _ => none,
          postPositions := none, postCash := none }
        "2025-01-06" none).result = .error msg) ∧
      (sell_futu true (some "agent1") (some 0) "00700" "HK" "MARKET"
        { ctxAvailable := true, prePositions := some [("HK.00700", 100, 100)],
          snapshot := some (some 10), placeOrder := fun _ => none,
          postPositions := none, postCash := none }
        "2025-01-06" none).lockTaken = false ∧
      (sell_futu true (some "agent1") (some 0) "00700" "HK" "MARKET"
        { ctxAvailable := true, prePositions := some [("HK.00700", 100, 100)],
          snapshot := some (some 10), placeOrder := fun _ => none,
          postPositions := none, postCash := none }
        "2025-01-06" none).orderPlaced = false ∧
      (sell_futu true (some "agent1") (some 0) "00700" "HK" "MARKET"
        { ctxAvailable := true, prePositions := some [("HK.00700", 100, 100)],
          snapshot := some (some 10), placeOrder := fun _ => none,
          postPositions := none, postCash := none }
        "2025-01-06" none).ledger = none) :=
  trade_validation_no_side_effects true (some "agent1") (some 0) "00700" "HK"
    "MARKET"
    { ctxAvailable := true, snapshot := some (some 10),
      placeOrder := fun _ => none, postPositions := none, postCash := none }
    { ctxAvailable := true, prePositions := some [("HK.00700", 100, 100)],
      snapshot := some (some 10), placeOrder := fun _ => none,
      postPositions := none, postCash := none }
    "2025-01-06" none (Or.inr (Or.inr ⟨0, rfl, le_refl 0⟩))

end AITrader
